import Mathlib

/-!
Verification of the env-coach project-management CLI.

Shallow embedding of the Rust sources under `src/`:
config resolution (`src/config.rs`), the Cargo.toml dependency merger
(`src/auto_update/cargo_toml_updater.rs`), the doc generator
(`src/auto_update/doc_gen.rs`), LLM response parsing
(`src/auto_update/llm_parsers.rs`), the suggestion applier
(`src/auto_update/updater.rs`), file operations
(`src/auto_update/code_gen.rs`) and sprint planning
(`src/scripts/sprint.rs`).

External libraries (serde_json text parsing, toml_edit value parsing,
chrono timestamps) are modelled as abstract inputs: JSON documents are
values of an inductive `Json` type, TOML value parsing is a parameter,
and timestamps are epoch milliseconds.
-/

namespace EnvCoach

/-! ## Configuration model (`src/config.rs`) -/

/-- `PartialLlmConfig` from config.rs: all fields optional. -/
structure PartialLlmConfig where
  model : Option String
  timeout_ms : Option Nat
  host : Option String
  port : Option Nat
deriving DecidableEq, Repr

/-- `FinalLlmConfig` from config.rs: fully resolved. -/
structure FinalLlmConfig where
  model : String
  timeout_ms : Nat
  host : String
  port : Nat
deriving DecidableEq, Repr

def DEFAULT_LLM_MODEL : String := "deepseek-coder:6.7b"

def DEFAULT_LLM_TIMEOUT_MS : Nat := 180000

def DEFAULT_LLM_HOST : String := "localhost"

def DEFAULT_LLM_PORT : Nat := 11434

/-- `resolve_llm_config` from config.rs lines 173-190: each field of the
final config is the project value, else the global value, else the
built-in default. -/
def resolve_llm_config (global_cfg project_cfg : Option PartialLlmConfig) :
    FinalLlmConfig :=
  let g_model := global_cfg.bind (fun g => g.model)
  let g_timeout := global_cfg.bind (fun g => g.timeout_ms)
  let g_host := global_cfg.bind (fun g => g.host)
  let g_port := global_cfg.bind (fun g => g.port)
  let p_model := project_cfg.bind (fun p => p.model)
  let p_timeout := project_cfg.bind (fun p => p.timeout_ms)
  let p_host := project_cfg.bind (fun p => p.host)
  let p_port := project_cfg.bind (fun p => p.port)
  { model := (p_model.or g_model).getD DEFAULT_LLM_MODEL
    timeout_ms := (p_timeout.or g_timeout).getD DEFAULT_LLM_TIMEOUT_MS
    host := (p_host.or g_host).getD DEFAULT_LLM_HOST
    port := (p_port.or g_port).getD DEFAULT_LLM_PORT }

end EnvCoach

namespace EnvCoach

/-- Layered resolution for one field: project override if set, else
global if set, else the default. Stated from the spec's words, to be
compared with `resolve_llm_config`. -/
def layered (proj glob : Option α) (dflt : α) : α :=
  match proj with
  | some v => v
  | none => match glob with
    | some v => v
    | none => dflt

theorem layered_or_getD (proj glob : Option α) (dflt : α) :
    layered proj glob dflt = (proj.or glob).getD dflt := by
  cases proj <;> cases glob <;> rfl

end EnvCoach

/-- C1: each field of `resolve_llm_config`'s result independently takes the
project override when set, else the global value when set, else the
built-in default ("deepseek-coder:6.7b", 180000, "localhost", 11434). -/
theorem C1_resolve_llm_config_layered
    (g p : Option EnvCoach.PartialLlmConfig) :
    (EnvCoach.resolve_llm_config g p).model =
      EnvCoach.layered (p.bind (fun c => c.model)) (g.bind (fun c => c.model))
        "deepseek-coder:6.7b" ∧
    (EnvCoach.resolve_llm_config g p).timeout_ms =
      EnvCoach.layered (p.bind (fun c => c.timeout_ms))
        (g.bind (fun c => c.timeout_ms)) 180000 ∧
    (EnvCoach.resolve_llm_config g p).host =
      EnvCoach.layered (p.bind (fun c => c.host)) (g.bind (fun c => c.host))
        "localhost" ∧
    (EnvCoach.resolve_llm_config g p).port =
      EnvCoach.layered (p.bind (fun c => c.port)) (g.bind (fun c => c.port))
        11434 := by
  refine ⟨?_, ?_, ?_, ?_⟩ <;>
    simp [EnvCoach.resolve_llm_config, EnvCoach.layered_or_getD,
      EnvCoach.DEFAULT_LLM_MODEL, EnvCoach.DEFAULT_LLM_TIMEOUT_MS,
      EnvCoach.DEFAULT_LLM_HOST, EnvCoach.DEFAULT_LLM_PORT]

namespace EnvCoach

/-! ## Tech-stack detection (`src/config.rs` lines 233-265) -/

/-- Which marker files exist in the current directory; input to
`detect_tech_stack`. -/
structure FileSet where
  cargoToml : Bool
  packageJson : Bool
  requirementsTxt : Bool
  setupPy : Bool
  pyprojectToml : Bool
  goMod : Bool
  pomXml : Bool
  buildGradle : Bool
  dockerfile : Bool
  dotGit : Bool
deriving DecidableEq, Repr

/-- `Project::detect_tech_stack` from config.rs: pushes one tag per
detected technology, in source order, defaulting to `["general"]`. -/
def detect_tech_stack (f : FileSet) : List String :=
  let tech_stack :=
    (if f.cargoToml then ["rust"] else []) ++
    (if f.packageJson then ["nodejs"] else []) ++
    (if f.requirementsTxt || f.setupPy || f.pyprojectToml then ["python"] else []) ++
    (if f.goMod then ["go"] else []) ++
    (if f.pomXml || f.buildGradle then ["java"] else []) ++
    (if f.dockerfile then ["docker"] else []) ++
    (if f.dotGit then ["git"] else [])
  if tech_stack.isEmpty then ["general"] else tech_stack

end EnvCoach

set_option maxHeartbeats 4000000 in
/-- C7: detect_tech_stack is determined by file presence: "rust" iff
Cargo.toml, "nodejs" iff package.json, "python" iff requirements.txt or
setup.py or pyproject.toml, "go" iff go.mod, "java" iff pom.xml or
build.gradle, "docker" iff Dockerfile, "git" iff .git; it equals
["general"] when none of these exist, and is always non-empty. -/
theorem C7_detect_tech_stack_characterization (f : EnvCoach.FileSet) :
    ("rust" ∈ EnvCoach.detect_tech_stack f ↔ f.cargoToml = true) ∧
    ("nodejs" ∈ EnvCoach.detect_tech_stack f ↔ f.packageJson = true) ∧
    ("python" ∈ EnvCoach.detect_tech_stack f ↔
      (f.requirementsTxt || f.setupPy || f.pyprojectToml) = true) ∧
    ("go" ∈ EnvCoach.detect_tech_stack f ↔ f.goMod = true) ∧
    ("java" ∈ EnvCoach.detect_tech_stack f ↔
      (f.pomXml || f.buildGradle) = true) ∧
    ("docker" ∈ EnvCoach.detect_tech_stack f ↔ f.dockerfile = true) ∧
    ("git" ∈ EnvCoach.detect_tech_stack f ↔ f.dotGit = true) ∧
    ((f.cargoToml = false ∧ f.packageJson = false ∧ f.requirementsTxt = false ∧
      f.setupPy = false ∧ f.pyprojectToml = false ∧ f.goMod = false ∧
      f.pomXml = false ∧ f.buildGradle = false ∧ f.dockerfile = false ∧
      f.dotGit = false) → EnvCoach.detect_tech_stack f = ["general"]) ∧
    EnvCoach.detect_tech_stack f ≠ [] := by
  obtain ⟨c, pj, rq, sp, py, gm, px, bg, dk, gi⟩ := f
  cases c <;> cases pj <;> cases rq <;> cases sp <;> cases py <;> cases gm <;>
    cases px <;> cases bg <;> cases dk <;> cases gi <;> decide

/-- Witness for C7's inner implication: with no marker files the result is
exactly ["general"]. -/
theorem C7_detect_tech_stack_witness :
    EnvCoach.detect_tech_stack
      ⟨false, false, false, false, false, false, false, false, false, false⟩ =
      ["general"] :=
  (C7_detect_tech_stack_characterization
    ⟨false, false, false, false, false, false, false, false, false, false⟩).2.2.2.2.2.2.2.1
    ⟨rfl, rfl, rfl, rfl, rfl, rfl, rfl, rfl, rfl, rfl⟩

namespace EnvCoach

/-! ## Project data model (`src/config.rs`)

Timestamps (`chrono::DateTime<Utc>`) are modelled as epoch milliseconds;
`Duration::days(d)` adds `d * 86400000`. -/

abbrev Timestamp := Nat

inductive ItemType where
  | UserStory | Bug | Epic | Task
deriving DecidableEq, Repr

inductive Priority where
  | Critical | High | Medium | Low
deriving DecidableEq, Repr

inductive Status where
  | Todo | InProgress | Review | Done
deriving DecidableEq, Repr

inductive SprintStatus where
  | Planning | Active | Review | Completed | Complete
deriving DecidableEq, Repr

structure BacklogItem where
  id : String
  item_type : ItemType
  title : String
  story : String
  acceptance_criteria : List String
  priority : Priority
  effort : Nat
  status : Status
  created : Timestamp
  sprint : Option String
  dependencies : List String
deriving DecidableEq, Repr

structure Sprint where
  id : String
  goal : String
  start_date : Timestamp
  end_date : Timestamp
  status : SprintStatus
  total_points : Nat
  completed_points : Nat
  tasks : List String
  stories : List String
  planned_velocity : Nat
  actual_velocity : Nat
deriving DecidableEq, Repr

structure ProjectMeta where
  name : String
  description : String
  created : Timestamp
  tech_stack : List String
  tags : List String
  llm : Option PartialLlmConfig
deriving DecidableEq, Repr

structure Project where
  meta : ProjectMeta
  backlog : List BacklogItem
  sprints : List Sprint
  current_sprint : Option String
  resolved_llm_config : FinalLlmConfig
deriving DecidableEq, Repr

/-! ## Basic file operations (`src/auto_update/code_gen.rs` lines 235-266)

The filesystem is modelled as an association list from paths to file
contents; each operation returns an optional error message (none = Ok)
together with the filesystem after the call. -/

abbrev FS := List (String × String)

/-- `create_file` from code_gen.rs: fails if the file already exists,
otherwise writes the new file. -/
def create_file (fs : FS) (file_path content : String) : Option String × FS :=
  if (List.lookup file_path fs).isSome then
    (some "File already exists at path", fs)
  else
    (none, fs ++ [(file_path, content)])

/-- `replace_file_content` from code_gen.rs: fails if the file does not
exist, otherwise overwrites its content. -/
def replace_file_content (fs : FS) (file_path new_content : String) :
    Option String × FS :=
  if (List.lookup file_path fs).isNone then
    (some "File not found for replacement at path", fs)
  else
    (none, fs.map (fun kv => if kv.1 == file_path then (kv.1, new_content) else kv))

/-- `append_to_file` from code_gen.rs: creates the file if missing,
otherwise appends; always appends a trailing newline. -/
def append_to_file (fs : FS) (file_path content_to_append : String) :
    Option String × FS :=
  match List.lookup file_path fs with
  | some old =>
    (none, fs.map (fun kv =>
      if kv.1 == file_path then (kv.1, old ++ content_to_append ++ "\n") else kv))
  | none => (none, fs ++ [(file_path, content_to_append ++ "\n")])

end EnvCoach

/-- C9: `create_file` errors and leaves the target untouched when the path
already exists, and `replace_file_content` errors and creates no file when
the path does not exist; in both error cases the filesystem is returned
unchanged. -/
theorem C9_create_replace_error_no_mutation (fs : EnvCoach.FS)
    (p c c0 : String) :
    (List.lookup p fs = some c0 →
      (EnvCoach.create_file fs p c).1.isSome = true ∧
      (EnvCoach.create_file fs p c).2 = fs ∧
      List.lookup p (EnvCoach.create_file fs p c).2 = some c0) ∧
    (List.lookup p fs = none →
      (EnvCoach.replace_file_content fs p c).1.isSome = true ∧
      (EnvCoach.replace_file_content fs p c).2 = fs ∧
      List.lookup p (EnvCoach.replace_file_content fs p c).2 = none) := by
  constructor
  · intro h
    simp [EnvCoach.create_file, h]
  · intro h
    simp [EnvCoach.replace_file_content, h]

/-- Witness for C9 at a concrete one-file filesystem. -/
theorem C9_create_replace_error_no_mutation_witness :
    ((EnvCoach.create_file [("a.rs", "x")] "a.rs" "y").1.isSome = true ∧
      (EnvCoach.create_file [("a.rs", "x")] "a.rs" "y").2 = [("a.rs", "x")] ∧
      List.lookup "a.rs" (EnvCoach.create_file [("a.rs", "x")] "a.rs" "y").2 =
        some "x") ∧
    ((EnvCoach.replace_file_content [("a.rs", "x")] "b.rs" "y").1.isSome = true ∧
      (EnvCoach.replace_file_content [("a.rs", "x")] "b.rs" "y").2 =
        [("a.rs", "x")] ∧
      List.lookup "b.rs"
        (EnvCoach.replace_file_content [("a.rs", "x")] "b.rs" "y").2 = none) :=
  ⟨(C9_create_replace_error_no_mutation [("a.rs", "x")] "a.rs" "y" "x").1
      (by decide),
    (C9_create_replace_error_no_mutation [("a.rs", "x")] "b.rs" "y" "x").2
      (by decide)⟩

namespace EnvCoach

/-! ## LLM user-story conversion (`src/auto_update/llm_parsers.rs` lines 7-48) -/

structure LlmUserStory where
  title : String
  story : String
  priority : String
  effort : Nat
  acceptance_criteria : List String
deriving DecidableEq, Repr

/-- The priority match inside `convert_llm_story_to_backlog_item`:
unknown priority strings default to Medium. -/
def priorityFromLlm (s : String) : Priority :=
  match s with
  | "Critical" => Priority.Critical
  | "High" => Priority.High
  | "Medium" => Priority.Medium
  | "Low" => Priority.Low
  | _ => Priority.Medium

/-- `convert_llm_story_to_backlog_item` from llm_parsers.rs: always returns
Ok; `now` stands for `Utc::now()`. -/
def convert_llm_story_to_backlog_item (llm_story : LlmUserStory) (id : String)
    (now : Timestamp) : Except String BacklogItem :=
  Except.ok
    { id := id
      item_type := ItemType.UserStory
      title := llm_story.title
      story := llm_story.story
      acceptance_criteria := llm_story.acceptance_criteria
      priority := priorityFromLlm llm_story.priority
      effort := llm_story.effort
      status := Status.Todo
      created := now
      sprint := none
      dependencies := [] }

end EnvCoach

/-- C10: `convert_llm_story_to_backlog_item` returns Ok on every input,
mapping "Critical"/"High"/"Medium"/"Low" to the matching Priority and any
other string to Medium, with item_type UserStory, status Todo, sprint none,
no dependencies, and the caller-supplied id. -/
theorem C10_convert_llm_story_total (st : EnvCoach.LlmUserStory) (id : String)
    (now : EnvCoach.Timestamp) :
    EnvCoach.convert_llm_story_to_backlog_item st id now =
      Except.ok
        { id := id
          item_type := EnvCoach.ItemType.UserStory
          title := st.title
          story := st.story
          acceptance_criteria := st.acceptance_criteria
          priority := EnvCoach.priorityFromLlm st.priority
          effort := st.effort
          status := EnvCoach.Status.Todo
          created := now
          sprint := none
          dependencies := [] } ∧
    EnvCoach.priorityFromLlm "Critical" = EnvCoach.Priority.Critical ∧
    EnvCoach.priorityFromLlm "High" = EnvCoach.Priority.High ∧
    EnvCoach.priorityFromLlm "Medium" = EnvCoach.Priority.Medium ∧
    EnvCoach.priorityFromLlm "Low" = EnvCoach.Priority.Low ∧
    (∀ s : String, s ≠ "Critical" → s ≠ "High" → s ≠ "Medium" → s ≠ "Low" →
      EnvCoach.priorityFromLlm s = EnvCoach.Priority.Medium) := by
  refine ⟨rfl, rfl, rfl, rfl, rfl, ?_⟩
  intro s h1 h2 h3 h4
  unfold EnvCoach.priorityFromLlm
  split <;> simp_all

/-- Witness for C10: an unknown priority string maps to Medium. -/
theorem C10_convert_llm_story_total_witness :
    EnvCoach.priorityFromLlm "urgent" = EnvCoach.Priority.Medium :=
  (C10_convert_llm_story_total ⟨"", "", "", 0, []⟩ "US-001" 0).2.2.2.2.2
    "urgent" (by decide) (by decide) (by decide) (by decide)

namespace EnvCoach

/-! ## Cargo.toml dependency merging (`src/auto_update/cargo_toml_updater.rs`)

The `[dependencies]` table of the parsed `Cargo.toml` document is modelled
as an association list from dependency names to their (already parsed)
TOML values; `toml_edit`'s parsing of a value string (via the dummy
document `temp_key = value`) is an external library call, modelled by the
parameter `pv : String → Option String`. -/

/-- Rust `str::trim`: strip whitespace from both ends (structural, so it
evaluates in the kernel). -/
def trimStr (s : String) : String :=
  String.mk (((s.data.dropWhile Char.isWhitespace).reverse.dropWhile
    Char.isWhitespace).reverse)

/-- Rust `str::to_lowercase` (character-wise). -/
def toLowerStr (s : String) : String :=
  String.mk (s.data.map Char.toLower)

abbrev DepsTable := List (String × String)

def containsKey (t : DepsTable) (k : String) : Bool :=
  (List.lookup k t).isSome

/-- Rust `line.splitn(2, '=').map(str::trim)`: the key before the first
`=` and the rest of the line, both trimmed; `none` when no `=` occurs. -/
def splitKV (l : String) : Option (String × String) :=
  match l.splitOn "=" with
  | k :: v :: rest =>
    some (trimStr k, trimStr (String.intercalate "=" (v :: rest)))
  | _ => none

/-- Rust `value_str.trim_matches('"')`. -/
def trimQuotes (s : String) : String :=
  String.mk (((s.data.dropWhile (fun c => c = '\"')).reverse.dropWhile
    (fun c => c = '\"')).reverse)

/-- One iteration of the loop in `add_cargo_dependencies`: skip blank and
comment lines, skip malformed lines, skip keys already present, otherwise
insert the parsed value (falling back to a bare string when the value
fails to parse but is surrounded by quotes). -/
def addDep (pv : String → Option String) (t : DepsTable) (line : String) :
    DepsTable :=
  if (trimStr line).isEmpty || (trimStr line).startsWith "#" then t
  else
    match splitKV (trimStr line) with
    | none => t
    | some kv =>
      if containsKey t kv.1 then t
      else
        match pv kv.2 with
        | some item => t ++ [(kv.1, item)]
        | none =>
          if kv.2.startsWith "\"" && kv.2.endsWith "\"" then
            t ++ [(kv.1, trimQuotes kv.2)]
          else t

/-- `add_cargo_dependencies` from cargo_toml_updater.rs: fold the loop
over all dependency lines. -/
def add_cargo_dependencies (pv : String → Option String) (t : DepsTable)
    (dependency_lines : List String) : DepsTable :=
  dependency_lines.foldl (addDep pv) t

theorem lookup_append_of_isSome (t l : DepsTable) (k : String)
    (h : (List.lookup k t).isSome = true) :
    List.lookup k (t ++ l) = List.lookup k t := by
  rw [List.lookup_append]
  cases hv : List.lookup k t with
  | none => rw [hv] at h; simp at h
  | some v => simp

theorem containsKey_append_single (t : DepsTable) (k v : String) :
    containsKey (t ++ [(k, v)]) k = true := by
  unfold containsKey
  rw [List.lookup_append]
  cases hv : List.lookup k t <;> simp

theorem addDep_lookup_preserved (pv : String → Option String) (line : String)
    (t : DepsTable) (k : String) (h : containsKey t k = true) :
    List.lookup k (addDep pv t line) = List.lookup k t := by
  have hsome : (List.lookup k t).isSome = true := h
  unfold addDep
  cases h1 : ((trimStr line).isEmpty || (trimStr line).startsWith "#") with
  | true => simp [h1]
  | false =>
    simp only [h1, Bool.false_eq_true, if_false]
    cases h2 : splitKV (trimStr line) with
    | none => simp
    | some kv =>
      cases h3 : containsKey t kv.1 with
      | true => simp [h3]
      | false =>
        simp only [h3, Bool.false_eq_true, if_false]
        cases h4 : pv kv.2 with
        | some item => simp [lookup_append_of_isSome t _ k hsome]
        | none =>
          cases h5 : (kv.2.startsWith "\"" && kv.2.endsWith "\"") with
          | true => simp [h5, lookup_append_of_isSome t _ k hsome]
          | false => simp [h5]

theorem run_lookup_preserved (pv : String → Option String)
    (lines : List String) (t : DepsTable) (k : String)
    (h : containsKey t k = true) :
    List.lookup k (add_cargo_dependencies pv t lines) = List.lookup k t := by
  induction lines generalizing t with
  | nil => rfl
  | cons l ls ih =>
    have h1 := addDep_lookup_preserved pv l t k h
    have h2 : containsKey (addDep pv t l) k = true := by
      unfold containsKey at *
      rw [h1]; exact h
    calc List.lookup k (add_cargo_dependencies pv (addDep pv t l) ls)
        = List.lookup k (addDep pv t l) := ih (addDep pv t l) h2
      _ = List.lookup k t := h1

theorem run_containsKey_mono (pv : String → Option String)
    (lines : List String) (t : DepsTable) (k : String)
    (h : containsKey t k = true) :
    containsKey (add_cargo_dependencies pv t lines) k = true := by
  unfold containsKey at *
  rw [run_lookup_preserved pv lines t k h]
  exact h

theorem addDep_absorb (pv : String → Option String) (line : String)
    (t T2 : DepsTable)
    (hsub : ∀ k, containsKey (addDep pv t line) k = true →
      containsKey T2 k = true) :
    addDep pv T2 line = T2 := by
  unfold addDep at hsub ⊢
  cases h1 : ((trimStr line).isEmpty || (trimStr line).startsWith "#") with
  | true => simp [h1]
  | false =>
    simp only [h1, Bool.false_eq_true, if_false] at hsub ⊢
    cases h2 : splitKV (trimStr line) with
    | none => simp [h2]
    | some kv =>
      simp only [h2] at hsub ⊢
      cases h3 : containsKey t kv.1 with
      | true =>
        simp only [h3, if_true] at hsub
        have hT : containsKey T2 kv.1 = true := hsub kv.1 h3
        simp [hT]
      | false =>
        simp only [h3, Bool.false_eq_true, if_false] at hsub
        cases h4 : pv kv.2 with
        | some item =>
          simp only [h4] at hsub
          have hT : containsKey T2 kv.1 = true :=
            hsub kv.1 (containsKey_append_single t kv.1 item)
          simp [hT]
        | none =>
          simp only [h4] at hsub
          cases h5 : (kv.2.startsWith "\"" && kv.2.endsWith "\"") with
          | true =>
            simp only [h5, if_true] at hsub
            have hT : containsKey T2 kv.1 = true :=
              hsub kv.1 (containsKey_append_single t kv.1 (trimQuotes kv.2))
            simp [h4, hT]
          | false =>
            cases h6 : containsKey T2 kv.1 <;> simp [h4, h5, h6]

theorem run_idempotent (pv : String → Option String) (lines : List String)
    (t : DepsTable) :
    add_cargo_dependencies pv (add_cargo_dependencies pv t lines) lines =
      add_cargo_dependencies pv t lines := by
  induction lines generalizing t with
  | nil => rfl
  | cons l ls ih =>
    show add_cargo_dependencies pv
        (addDep pv (add_cargo_dependencies pv (addDep pv t l) ls) l) ls =
      add_cargo_dependencies pv (addDep pv t l) ls
    have habs : addDep pv (add_cargo_dependencies pv (addDep pv t l) ls) l =
        add_cargo_dependencies pv (addDep pv t l) ls := by
      apply addDep_absorb
      intro k hk
      exact run_containsKey_mono pv ls (addDep pv t l) k hk
    rw [habs]
    exact ih (addDep pv t l)

end EnvCoach

/-- C2: a dependency key already present in `[dependencies]` is skipped,
never overwritten (its looked-up value is unchanged by
`add_cargo_dependencies`), and running `add_cargo_dependencies` twice with
the same dependency lines yields the same table as running it once. -/
theorem C2_add_cargo_dependencies_idempotent
    (pv : String → Option String) (t : EnvCoach.DepsTable)
    (lines : List String) (k : String) :
    (EnvCoach.containsKey t k = true →
      List.lookup k (EnvCoach.add_cargo_dependencies pv t lines) =
        List.lookup k t) ∧
    EnvCoach.add_cargo_dependencies pv
        (EnvCoach.add_cargo_dependencies pv t lines) lines =
      EnvCoach.add_cargo_dependencies pv t lines :=
  ⟨EnvCoach.run_lookup_preserved pv lines t k,
    EnvCoach.run_idempotent pv lines t⟩

/-- Witness for C2: re-adding "serde" does not overwrite the existing
pinned version. -/
theorem C2_add_cargo_dependencies_idempotent_witness :
    List.lookup "serde"
        (EnvCoach.add_cargo_dependencies (fun s => some s)
          [("serde", "\"1.0\"")] ["serde = \"2.0\""]) =
      List.lookup "serde" [("serde", "\"1.0\"")] :=
  (C2_add_cargo_dependencies_idempotent (fun s => some s)
    [("serde", "\"1.0\"")] ["serde = \"2.0\""] "serde").1 (by decide)

namespace EnvCoach

/-! ## Documentation generation (`src/auto_update/doc_gen.rs`)

File contents are modelled as character lists; Rust's byte positions from
`str::find` become character positions, which identify the same text
locations. `Utc::now().format("%Y-%m-%d")` is the parameter `today`. -/

/-- Rust `str::contains` (substring occurrence). -/
def listContains (l pat : List Char) : Bool :=
  match l with
  | [] => pat.isEmpty
  | c :: tl => pat.isPrefixOf (c :: tl) || listContains tl pat

/-- Rust `str::find` (position of first occurrence). -/
def findSub (l pat : List Char) : Option Nat :=
  match l with
  | [] => if pat.isEmpty then some 0 else none
  | c :: tl => if pat.isPrefixOf (c :: tl) then some 0
    else (findSub tl pat).map (fun n => n + 1)

def defaultReadme (name : String) : List Char :=
  ("# ".data) ++ name.data ++ ("\n\n## Features\n\n".data)

/-- `format!("- ✅ {} ({})\n", task.title, task.id)`. -/
def featureLine (task : BacklogItem) : List Char :=
  ("- ✅ ".data) ++ task.title.data ++ (" (".data) ++ task.id.data ++
    (")\n".data)

def featuresHeader : List Char := "## Features".data

/-- The else-branch of `update_readme`: insert the feature line right
after the "## Features" heading line, or append a new Features section. -/
def insertReadmeFeature (content fl : List Char) : List Char :=
  match findSub content featuresHeader with
  | some p =>
    content.take (p + (findSub (content.drop p) ("\n".data)).getD 0 + 1) ++
      fl ++
      content.drop (p + (findSub (content.drop p) ("\n".data)).getD 0 + 1)
  | none => content ++ (("\n## Features\n".data) ++ fl)

def readmeContent (project : Project) (readme : Option (List Char)) :
    List Char :=
  match readme with
  | some c => c
  | none => defaultReadme project.meta.name

/-- `update_readme` from doc_gen.rs: the README state is `none` when the
file does not exist; the function returns the state after the call. -/
def update_readme (project : Project) (task : BacklogItem)
    (readme : Option (List Char)) : Option (List Char) :=
  if listContains (readmeContent project readme) task.id.data then readme
  else some (insertReadmeFeature (readmeContent project readme)
    (featureLine task))

/-- `format!("## {} - {}\n- Completed: {} ({})\n\n", today, task.title,
task.story, task.id)`. -/
def changelogEntry (today : List Char) (task : BacklogItem) : List Char :=
  ("## ".data) ++ today ++ (" - ".data) ++ task.title.data ++
    ("\n- Completed: ".data) ++ task.story.data ++ (" (".data) ++
    task.id.data ++ (")\n\n".data)

def changelogContent (changelog : Option (List Char)) : List Char :=
  match changelog with
  | some c => c
  | none => "# Changelog\n\n".data

def insertChangelogEntry (content entry : List Char) : List Char :=
  match findSub content ("\n".data) with
  | some p => content.take (p + 1) ++ entry ++ content.drop (p + 1)
  | none => content ++ entry

/-- `update_changelog` from doc_gen.rs. -/
def update_changelog (today : List Char) (task : BacklogItem)
    (changelog : Option (List Char)) : Option (List Char) :=
  if listContains (changelogContent changelog) task.id.data then changelog
  else some (insertChangelogEntry (changelogContent changelog)
    (changelogEntry today task))

/-- `update_docs_for_task_completion` from doc_gen.rs: looks the task up
in the backlog, then updates README and CHANGELOG. -/
def update_docs_for_task_completion (project : Project) (task_id : String)
    (today : List Char) (readme changelog : Option (List Char)) :
    Option (List Char) × Option (List Char) :=
  match project.backlog.find? (fun item => item.id == task_id) with
  | some task =>
    (update_readme project task readme, update_changelog today task changelog)
  | none => (readme, changelog)

theorem listContains_of_isPrefixOf {l pat : List Char}
    (h : pat.isPrefixOf l = true) : listContains l pat = true := by
  cases l with
  | nil =>
    cases pat with
    | nil => rfl
    | cons c tl => simp at h
  | cons c tl => simp [listContains, h]

theorem listContains_cons {tl : List Char} (c : Char) {pat : List Char}
    (h : listContains tl pat = true) : listContains (c :: tl) pat = true := by
  simp [listContains, h]

theorem listContains_append_left {l pat : List Char} (pre : List Char)
    (h : listContains l pat = true) : listContains (pre ++ l) pat = true := by
  induction pre with
  | nil => exact h
  | cons c tl ih => exact listContains_cons c ih

theorem listContains_append_right {l pat : List Char} (suf : List Char)
    (h : listContains l pat = true) : listContains (l ++ suf) pat = true := by
  induction l with
  | nil =>
    cases pat with
    | nil => exact listContains_of_isPrefixOf (by simp)
    | cons c tl => simp [listContains] at h
  | cons c tl ih =>
    rcases Bool.or_eq_true_iff.mp h with hp | hc
    · refine listContains_of_isPrefixOf ?_
      rw [List.isPrefixOf_iff_prefix] at hp ⊢
      exact hp.trans (List.prefix_append _ _)
    · exact listContains_cons c (ih hc)

theorem listContains_self (pat : List Char) : listContains pat pat = true :=
  listContains_of_isPrefixOf (by simp)

theorem listContains_parts (pre suf pat : List Char) :
    listContains (pre ++ (pat ++ suf)) pat = true :=
  listContains_append_left pre
    (listContains_append_right suf (listContains_self pat))

theorem featureLine_contains_id (task : BacklogItem) :
    listContains (featureLine task) task.id.data = true := by
  unfold featureLine
  simp only [List.append_assoc]
  refine listContains_append_left _ ?_
  refine listContains_append_left _ ?_
  refine listContains_append_left _ ?_
  exact listContains_append_right _ (listContains_self _)

theorem insertReadmeFeature_contains (content : List Char)
    (task : BacklogItem) :
    listContains (insertReadmeFeature content (featureLine task))
      task.id.data = true := by
  unfold insertReadmeFeature
  cases h : findSub content featuresHeader with
  | some p =>
    simp only [List.append_assoc]
    exact listContains_append_left _
      (listContains_append_right _ (featureLine_contains_id task))
  | none =>
    simp only [List.append_assoc]
    refine listContains_append_left _ ?_
    exact listContains_append_left _ (featureLine_contains_id task)

theorem changelogEntry_contains_id (today : List Char) (task : BacklogItem) :
    listContains (changelogEntry today task) task.id.data = true := by
  unfold changelogEntry
  simp only [List.append_assoc]
  refine listContains_append_left _ ?_
  refine listContains_append_left _ ?_
  refine listContains_append_left _ ?_
  refine listContains_append_left _ ?_
  refine listContains_append_left _ ?_
  refine listContains_append_left _ ?_
  refine listContains_append_left _ ?_
  exact listContains_append_right _ (listContains_self _)

theorem insertChangelogEntry_contains (content today : List Char)
    (task : BacklogItem) :
    listContains (insertChangelogEntry content (changelogEntry today task))
      task.id.data = true := by
  unfold insertChangelogEntry
  cases h : findSub content ("\n".data) with
  | some p =>
    simp only [List.append_assoc]
    exact listContains_append_left _
      (listContains_append_right _ (changelogEntry_contains_id today task))
  | none =>
    simp only [List.append_assoc]
    exact listContains_append_left _ (changelogEntry_contains_id today task)

theorem update_readme_idem (project : Project) (task : BacklogItem)
    (readme : Option (List Char)) :
    update_readme project task (update_readme project task readme) =
      update_readme project task readme := by
  unfold update_readme
  cases h : listContains (readmeContent project readme) task.id.data with
  | true => simp [h]
  | false =>
    simp only [h, Bool.false_eq_true, if_false]
    have hc : listContains
        (readmeContent project (some (insertReadmeFeature
          (readmeContent project readme) (featureLine task))))
        task.id.data = true := by
      unfold readmeContent
      exact insertReadmeFeature_contains _ task
    simp [hc]

theorem update_changelog_idem (today₁ today₂ : List Char)
    (task : BacklogItem) (changelog : Option (List Char)) :
    update_changelog today₂ task (update_changelog today₁ task changelog) =
      update_changelog today₁ task changelog := by
  unfold update_changelog
  cases h : listContains (changelogContent changelog) task.id.data with
  | true => simp [h]
  | false =>
    simp only [h, Bool.false_eq_true, if_false]
    have hc : listContains
        (changelogContent (some (insertChangelogEntry
          (changelogContent changelog) (changelogEntry today₁ task))))
        task.id.data = true := by
      unfold changelogContent
      exact insertChangelogEntry_contains _ today₁ task
    simp [hc]

end EnvCoach

/-- C3: when the current README already contains the task's ID,
`update_readme` leaves it unchanged, and likewise `update_changelog` for
CHANGELOG; consequently `update_docs_for_task_completion` is idempotent
for a fixed task ID (even across different run dates). -/
theorem C3_update_docs_idempotent (project : EnvCoach.Project)
    (task : EnvCoach.BacklogItem) (task_id : String)
    (today₁ today₂ : List Char) (readme changelog : Option (List Char))
    (cr cc : List Char) :
    (readme = some cr → EnvCoach.listContains cr task.id.data = true →
      EnvCoach.update_readme project task readme = readme) ∧
    (changelog = some cc → EnvCoach.listContains cc task.id.data = true →
      EnvCoach.update_changelog today₁ task changelog = changelog) ∧
    EnvCoach.update_docs_for_task_completion project task_id today₂
        (EnvCoach.update_docs_for_task_completion project task_id today₁
          readme changelog).1
        (EnvCoach.update_docs_for_task_completion project task_id today₁
          readme changelog).2 =
      EnvCoach.update_docs_for_task_completion project task_id today₁
        readme changelog := by
  refine ⟨?_, ?_, ?_⟩
  · intro h1 h2
    simp [EnvCoach.update_readme, EnvCoach.readmeContent, h1, h2]
  · intro h1 h2
    simp [EnvCoach.update_changelog, EnvCoach.changelogContent, h1, h2]
  · unfold EnvCoach.update_docs_for_task_completion
    cases h : project.backlog.find? (fun item => item.id == task_id) with
    | none => rfl
    | some t =>
      simp only
      rw [EnvCoach.update_readme_idem, EnvCoach.update_changelog_idem]

namespace EnvCoach

/-- A concrete project used by witnesses. -/
def sampleMeta : ProjectMeta where
  name := "p"
  description := ""
  created := 0
  tech_stack := []
  tags := []
  llm := none

def sampleProject : Project where
  meta := sampleMeta
  backlog := []
  sprints := []
  current_sprint := none
  resolved_llm_config := { model := "m", timeout_ms := 1, host := "h", port := 1 }

/-- A concrete completed task used by witnesses. -/
def sampleTask : BacklogItem where
  id := "T-001"
  item_type := ItemType.Task
  title := "t"
  story := "s"
  acceptance_criteria := []
  priority := Priority.Low
  effort := 1
  status := Status.Done
  created := 0
  sprint := none
  dependencies := []

end EnvCoach

/-- Witness for C3: a README that already mentions the task ID is left
unchanged. -/
theorem C3_update_docs_idempotent_witness :
    EnvCoach.update_readme EnvCoach.sampleProject EnvCoach.sampleTask
      (some ("done T-001".data)) = some ("done T-001".data) :=
  (C3_update_docs_idempotent EnvCoach.sampleProject EnvCoach.sampleTask
    "T-001" [] [] (some ("done T-001".data)) none ("done T-001".data) []).1
    rfl (by decide)

namespace EnvCoach

/-! ## JSON documents (serde_json values)

`project.json` and LLM responses are JSON texts; the external serde_json
text layer is abstracted away, so documents are values of `Json`. All
numeric fields of this program are unsigned integers, so numbers are Nat.
Object field access is first occurrence, and unknown fields are ignored,
as in serde. -/

inductive Json where
  | null : Json
  | bool (b : Bool) : Json
  | num (n : Nat) : Json
  | str (s : String) : Json
  | arr (xs : List Json) : Json
  | obj (fields : List (String × Json)) : Json

def jGet (fields : List (String × Json)) (k : String) : Option Json :=
  match fields with
  | [] => none
  | (k2, v) :: rest => if k2 == k then some v else jGet rest k

def decStr : Json → Option String
  | Json.str s => some s
  | _ => none

def decNat : Json → Option Nat
  | Json.num n => some n
  | _ => none

def decOptStr : Json → Option (Option String)
  | Json.null => some none
  | Json.str s => some (some s)
  | _ => none

def decOptNat : Json → Option (Option Nat)
  | Json.null => some none
  | Json.num n => some (some n)
  | _ => none

/-- serde `Option` fields: a missing field deserializes to None. -/
def decOptStrField (fields : List (String × Json)) (k : String) :
    Option (Option String) :=
  match jGet fields k with
  | none => some none
  | some j => decOptStr j

def decOptNatField (fields : List (String × Json)) (k : String) :
    Option (Option Nat) :=
  match jGet fields k with
  | none => some none
  | some j => decOptNat j

def encOptStr : Option String → Json
  | none => Json.null
  | some s => Json.str s

def encOptNat : Option Nat → Json
  | none => Json.null
  | some n => Json.num n

def encStrList (l : List String) : Json :=
  Json.arr (l.map Json.str)

/-- serde `Vec` deserialization: element-wise, failing on the first bad
element. -/
def decJsonList {α : Type} (dec : Json → Option α) : List Json → Option (List α)
  | [] => some []
  | j :: tl => do
    let x ← dec j
    let xs ← decJsonList dec tl
    pure (x :: xs)

def decStrList : Json → Option (List String)
  | Json.arr xs => decJsonList decStr xs
  | _ => none

/-! ### Serialization of the config and project types (serde derives) -/

def encPartialLlmConfig (c : PartialLlmConfig) : Json :=
  Json.obj [("model", encOptStr c.model), ("timeout_ms", encOptNat c.timeout_ms),
    ("host", encOptStr c.host), ("port", encOptNat c.port)]

def decPartialLlmConfig : Json → Option PartialLlmConfig
  | Json.obj fs => do
    let model ← decOptStrField fs "model"
    let timeout_ms ← decOptNatField fs "timeout_ms"
    let host ← decOptStrField fs "host"
    let port ← decOptNatField fs "port"
    pure ⟨model, timeout_ms, host, port⟩
  | _ => none

def encItemType : ItemType → Json
  | ItemType.UserStory => Json.str "UserStory"
  | ItemType.Bug => Json.str "Bug"
  | ItemType.Epic => Json.str "Epic"
  | ItemType.Task => Json.str "Task"

def decItemType : Json → Option ItemType
  | Json.str "UserStory" => some ItemType.UserStory
  | Json.str "Bug" => some ItemType.Bug
  | Json.str "Epic" => some ItemType.Epic
  | Json.str "Task" => some ItemType.Task
  | _ => none

def encPriority : Priority → Json
  | Priority.Critical => Json.str "Critical"
  | Priority.High => Json.str "High"
  | Priority.Medium => Json.str "Medium"
  | Priority.Low => Json.str "Low"

def decPriority : Json → Option Priority
  | Json.str "Critical" => some Priority.Critical
  | Json.str "High" => some Priority.High
  | Json.str "Medium" => some Priority.Medium
  | Json.str "Low" => some Priority.Low
  | _ => none

def encStatus : Status → Json
  | Status.Todo => Json.str "Todo"
  | Status.InProgress => Json.str "InProgress"
  | Status.Review => Json.str "Review"
  | Status.Done => Json.str "Done"

def decStatus : Json → Option Status
  | Json.str "Todo" => some Status.Todo
  | Json.str "InProgress" => some Status.InProgress
  | Json.str "Review" => some Status.Review
  | Json.str "Done" => some Status.Done
  | _ => none

def encSprintStatus : SprintStatus → Json
  | SprintStatus.Planning => Json.str "Planning"
  | SprintStatus.Active => Json.str "Active"
  | SprintStatus.Review => Json.str "Review"
  | SprintStatus.Completed => Json.str "Completed"
  | SprintStatus.Complete => Json.str "Complete"

def decSprintStatus : Json → Option SprintStatus
  | Json.str "Planning" => some SprintStatus.Planning
  | Json.str "Active" => some SprintStatus.Active
  | Json.str "Review" => some SprintStatus.Review
  | Json.str "Completed" => some SprintStatus.Completed
  | Json.str "Complete" => some SprintStatus.Complete
  | _ => none

def encBacklogItem (b : BacklogItem) : Json :=
  Json.obj [("id", Json.str b.id), ("item_type", encItemType b.item_type),
    ("title", Json.str b.title), ("story", Json.str b.story),
    ("acceptance_criteria", encStrList b.acceptance_criteria),
    ("priority", encPriority b.priority), ("effort", Json.num b.effort),
    ("status", encStatus b.status), ("created", Json.num b.created),
    ("sprint", encOptStr b.sprint),
    ("dependencies", encStrList b.dependencies)]

def decBacklogItem : Json → Option BacklogItem
  | Json.obj fs => do
    let id ← (jGet fs "id").bind decStr
    let item_type ← (jGet fs "item_type").bind decItemType
    let title ← (jGet fs "title").bind decStr
    let story ← (jGet fs "story").bind decStr
    let acceptance_criteria ← (jGet fs "acceptance_criteria").bind decStrList
    let priority ← (jGet fs "priority").bind decPriority
    let effort ← (jGet fs "effort").bind decNat
    let status ← (jGet fs "status").bind decStatus
    let created ← (jGet fs "created").bind decNat
    let sprint ← decOptStrField fs "sprint"
    let dependencies ← (jGet fs "dependencies").bind decStrList
    pure ⟨id, item_type, title, story, acceptance_criteria, priority, effort,
      status, created, sprint, dependencies⟩
  | _ => none

def encSprint (s : Sprint) : Json :=
  Json.obj [("id", Json.str s.id), ("goal", Json.str s.goal),
    ("start_date", Json.num s.start_date), ("end_date", Json.num s.end_date),
    ("status", encSprintStatus s.status),
    ("total_points", Json.num s.total_points),
    ("completed_points", Json.num s.completed_points),
    ("tasks", encStrList s.tasks), ("stories", encStrList s.stories),
    ("planned_velocity", Json.num s.planned_velocity),
    ("actual_velocity", Json.num s.actual_velocity)]

def decSprint : Json → Option Sprint
  | Json.obj fs => do
    let id ← (jGet fs "id").bind decStr
    let goal ← (jGet fs "goal").bind decStr
    let start_date ← (jGet fs "start_date").bind decNat
    let end_date ← (jGet fs "end_date").bind decNat
    let status ← (jGet fs "status").bind decSprintStatus
    let total_points ← (jGet fs "total_points").bind decNat
    let completed_points ← (jGet fs "completed_points").bind decNat
    let tasks ← (jGet fs "tasks").bind decStrList
    let stories ← (jGet fs "stories").bind decStrList
    let planned_velocity ← (jGet fs "planned_velocity").bind decNat
    let actual_velocity ← (jGet fs "actual_velocity").bind decNat
    pure ⟨id, goal, start_date, end_date, status, total_points,
      completed_points, tasks, stories, planned_velocity, actual_velocity⟩
  | _ => none

def encOptLlm : Option PartialLlmConfig → Json
  | none => Json.null
  | some c => encPartialLlmConfig c

def encProjectMeta (m : ProjectMeta) : Json :=
  Json.obj [("name", Json.str m.name), ("description", Json.str m.description),
    ("created", Json.num m.created), ("tech_stack", encStrList m.tech_stack),
    ("tags", encStrList m.tags), ("llm", encOptLlm m.llm)]

def decOptLlm : Json → Option (Option PartialLlmConfig)
  | Json.null => some none
  | j => (decPartialLlmConfig j).map some

def decOptLlmField (fields : List (String × Json)) : Option (Option PartialLlmConfig) :=
  match jGet fields "llm" with
  | none => some none
  | some j => decOptLlm j

def decProjectMeta : Json → Option ProjectMeta
  | Json.obj fs => do
    let name ← (jGet fs "name").bind decStr
    let description ← (jGet fs "description").bind decStr
    let created ← (jGet fs "created").bind decNat
    let tech_stack ← (jGet fs "tech_stack").bind decStrList
    let tags ← (jGet fs "tags").bind decStrList
    let llm ← decOptLlmField fs
    pure ⟨name, description, created, tech_stack, tags, llm⟩
  | _ => none

/-- The `ProjectFileContent` helper struct from config.rs: the part of
`Project` that is persisted in project.json. -/
structure ProjectFileContent where
  meta : ProjectMeta
  backlog : List BacklogItem
  sprints : List Sprint
  current_sprint : Option String
deriving DecidableEq, Repr

/-- `Project::save` from config.rs: serialize the project; the
`resolved_llm_config` field is `#[serde(skip)]`ped. -/
def Project.save (p : Project) : Json :=
  Json.obj [("meta", encProjectMeta p.meta),
    ("backlog", Json.arr (p.backlog.map encBacklogItem)),
    ("sprints", Json.arr (p.sprints.map encSprint)),
    ("current_sprint", encOptStr p.current_sprint)]

def decProjectFileContent : Json → Option ProjectFileContent
  | Json.obj fs => do
    let meta ← (jGet fs "meta").bind decProjectMeta
    let backlog ← (jGet fs "backlog").bind (fun j =>
      match j with
      | Json.arr xs => decJsonList decBacklogItem xs
      | _ => none)
    let sprints ← (jGet fs "sprints").bind (fun j =>
      match j with
      | Json.arr xs => decJsonList decSprint xs
      | _ => none)
    let current_sprint ← decOptStrField fs "current_sprint"
    pure ⟨meta, backlog, sprints, current_sprint⟩
  | _ => none

/-- `Project::load` from config.rs: deserialize `ProjectFileContent` from
the project.json document and resolve the LLM config against the (already
loaded) global config. -/
def Project.load (global_llm : Option PartialLlmConfig) (content : Json) :
    Option Project :=
  (decProjectFileContent content).map fun pfc =>
    { meta := pfc.meta
      backlog := pfc.backlog
      sprints := pfc.sprints
      current_sprint := pfc.current_sprint
      resolved_llm_config := resolve_llm_config global_llm pfc.meta.llm }

end EnvCoach

namespace EnvCoach

/-! ### Round-trip lemmas for the project serialization -/

theorem decOptStr_enc (o : Option String) : decOptStr (encOptStr o) = some o := by
  cases o <;> rfl

theorem decOptNat_enc (o : Option Nat) : decOptNat (encOptNat o) = some o := by
  cases o <;> rfl

theorem decItemType_enc (t : ItemType) : decItemType (encItemType t) = some t := by
  cases t <;> rfl

theorem decPriority_enc (t : Priority) : decPriority (encPriority t) = some t := by
  cases t <;> rfl

theorem decStatus_enc (t : Status) : decStatus (encStatus t) = some t := by
  cases t <;> rfl

theorem decSprintStatus_enc (t : SprintStatus) :
    decSprintStatus (encSprintStatus t) = some t := by
  cases t <;> rfl

theorem decJsonList_enc {α : Type} (dec : Json → Option α) (enc : α → Json)
    (h : ∀ x, dec (enc x) = some x) (l : List α) :
    decJsonList dec (l.map enc) = some l := by
  induction l with
  | nil => rfl
  | cons a tl ih => simp [decJsonList, h, ih]

theorem decStrList_enc (l : List String) : decStrList (encStrList l) = some l :=
  decJsonList_enc decStr Json.str (fun _ => rfl) l

theorem decPartialLlmConfig_enc (c : PartialLlmConfig) :
    decPartialLlmConfig (encPartialLlmConfig c) = some c := by
  obtain ⟨m, t, h, p⟩ := c
  simp [encPartialLlmConfig, decPartialLlmConfig, jGet, decOptStrField,
    decOptNatField, decOptStr_enc, decOptNat_enc]

theorem decBacklogItem_enc (b : BacklogItem) :
    decBacklogItem (encBacklogItem b) = some b := by
  obtain ⟨id, ty, ti, st, ac, pr, ef, sta, cr, sp, dep⟩ := b
  simp [encBacklogItem, decBacklogItem, jGet, decStr, decNat,
    decOptStrField, decOptStr_enc, decStrList_enc, decItemType_enc,
    decPriority_enc, decStatus_enc]

theorem decSprint_enc (s : Sprint) : decSprint (encSprint s) = some s := by
  obtain ⟨id, go, sd, ed, st, tp, cp, ta, so, pl, av⟩ := s
  simp [encSprint, decSprint, jGet, decStr, decNat, decStrList_enc,
    decSprintStatus_enc]

theorem decOptLlm_enc (o : Option PartialLlmConfig) :
    decOptLlm (encOptLlm o) = some o := by
  cases o with
  | none => rfl
  | some c =>
    show (decPartialLlmConfig (encPartialLlmConfig c)).map some = some (some c)
    rw [decPartialLlmConfig_enc]
    rfl

theorem decProjectMeta_enc (m : ProjectMeta) :
    decProjectMeta (encProjectMeta m) = some m := by
  obtain ⟨na, de, cr, ts, tg, llm⟩ := m
  simp [encProjectMeta, decProjectMeta, jGet, decStr, decNat,
    decStrList_enc, decOptLlmField, decOptLlm_enc]

theorem decProjectFileContent_enc (p : Project) :
    decProjectFileContent (Project.save p) = some
      ⟨p.meta, p.backlog, p.sprints, p.current_sprint⟩ := by
  simp [Project.save, decProjectFileContent, jGet, decOptStrField,
    decOptStr_enc, decProjectMeta_enc,
    decJsonList_enc decBacklogItem encBacklogItem decBacklogItem_enc,
    decJsonList_enc decSprint encSprint decSprint_enc]

end EnvCoach

/-- C6: `Project::save` followed by `Project::load` (with an unchanged
global config) succeeds and preserves meta, backlog, sprints and
current_sprint, while the resolved LLM config is recomputed from the
global and project partial configs rather than persisted. -/
theorem C6_save_load_roundtrip (g : Option EnvCoach.PartialLlmConfig)
    (p : EnvCoach.Project) :
    EnvCoach.Project.load g (EnvCoach.Project.save p) = some
      { meta := p.meta
        backlog := p.backlog
        sprints := p.sprints
        current_sprint := p.current_sprint
        resolved_llm_config := EnvCoach.resolve_llm_config g p.meta.llm } := by
  simp [EnvCoach.Project.load, EnvCoach.decProjectFileContent_enc]

namespace EnvCoach

/-! ## assist-task response parsing (`src/auto_update/llm_parsers.rs` 50-115) -/

inductive SuggestionAction where
  | Create | Replace | AppendToFile | ReplaceFunction | AppendToFunction
  | AddImport
deriving DecidableEq, Repr

structure LlmSourceCodeSuggestion where
  target_file : String
  action : SuggestionAction
  content : String
  function_name : Option String
  import_statement : Option String
  notes : Option String
deriving DecidableEq, Repr

structure LlmCargoDependencySuggestion where
  dependency_lines : List String
  notes : Option String
deriving DecidableEq, Repr

structure LlmGeneralAdviceSuggestion where
  content : String
  notes : Option String
deriving DecidableEq, Repr

inductive LlmSingleSuggestion where
  | CargoDependency (s : LlmCargoDependencySuggestion)
  | SourceCode (s : LlmSourceCodeSuggestion)
  | GeneralAdvice (s : LlmGeneralAdviceSuggestion)
deriving DecidableEq, Repr

structure LlmAssistTaskResponse where
  suggestions : List LlmSingleSuggestion
  overall_summary : Option String
deriving DecidableEq, Repr

/-- serde `rename_all = "snake_case"` dispatch for `SuggestionAction`. -/
def decAction : Json → Option SuggestionAction
  | Json.str a =>
    if a = "create" then some SuggestionAction.Create
    else if a = "replace" then some SuggestionAction.Replace
    else if a = "append_to_file" then some SuggestionAction.AppendToFile
    else if a = "replace_function" then some SuggestionAction.ReplaceFunction
    else if a = "append_to_function" then some SuggestionAction.AppendToFunction
    else if a = "add_import" then some SuggestionAction.AddImport
    else none
  | _ => none

/-- serde `#[serde(default)]` on a `String` field: missing becomes "". -/
def decStrFieldD (fields : List (String × Json)) (k : String) : Option String :=
  match jGet fields k with
  | none => some ""
  | some j => decStr j

def decCargoDep (fs : List (String × Json)) :
    Option LlmCargoDependencySuggestion := do
  let dependency_lines ← (jGet fs "dependency_lines").bind decStrList
  let notes ← decOptStrField fs "notes"
  pure ⟨dependency_lines, notes⟩

def decSourceCode (fs : List (String × Json)) :
    Option LlmSourceCodeSuggestion := do
  let target_file ← (jGet fs "target_file").bind decStr
  let action ← (jGet fs "action").bind decAction
  let content ← decStrFieldD fs "content"
  let function_name ← decOptStrField fs "function_name"
  let import_statement ← decOptStrField fs "import_statement"
  let notes ← decOptStrField fs "notes"
  pure ⟨target_file, action, content, function_name, import_statement, notes⟩

def decGeneralAdvice (fs : List (String × Json)) :
    Option LlmGeneralAdviceSuggestion := do
  let content ← (jGet fs "content").bind decStr
  let notes ← decOptStrField fs "notes"
  pure ⟨content, notes⟩

/-- serde internally-tagged enum dispatch on the "type" field
(`#[serde(tag = "type", rename_all = "snake_case")]`). -/
def decSuggestion : Json → Option LlmSingleSuggestion
  | Json.obj fs =>
    match jGet fs "type" with
    | some (Json.str t) =>
      if t = "cargo_dependency" then
        (decCargoDep fs).map LlmSingleSuggestion.CargoDependency
      else if t = "source_code" then
        (decSourceCode fs).map LlmSingleSuggestion.SourceCode
      else if t = "general_advice" then
        (decGeneralAdvice fs).map LlmSingleSuggestion.GeneralAdvice
      else none
    | _ => none
  | _ => none

def decAssistTaskResponse : Json → Option LlmAssistTaskResponse
  | Json.obj fs => do
    let suggestions ← (jGet fs "suggestions").bind (fun j =>
      match j with
      | Json.arr xs => decJsonList decSuggestion xs
      | _ => none)
    let overall_summary ← decOptStrField fs "overall_summary"
    pure ⟨suggestions, overall_summary⟩
  | _ => none

/-- `parse_assist_task_response` from llm_parsers.rs: the input is `none`
when the response text is not valid JSON (the external serde_json text
parse failed), otherwise the parsed document. -/
def parse_assist_task_response (input : Option Json) :
    Except String LlmAssistTaskResponse :=
  match input with
  | none => Except.error "invalid JSON"
  | some j =>
    match decAssistTaskResponse j with
    | some r => Except.ok r
    | none => Except.error
        "Failed to deserialize LLM response for assist-task"

/-! Spec-side validity predicate for C4, stated from the claim's words:
the document is an object whose "suggestions" field is an array, every
element of which carries a "type" tag equal to cargo_dependency,
source_code or general_advice and has that variant's required fields
present (with the expected shapes, optional fields being absent, null or
strings). -/

def isJsonStr : Json → Bool
  | Json.str _ => true
  | _ => false

def ValidOptStrField (fs : List (String × Json)) (k : String) : Bool :=
  match jGet fs k with
  | none => true
  | some Json.null => true
  | some (Json.str _) => true
  | some _ => false

def ValidReqStrField (fs : List (String × Json)) (k : String) : Bool :=
  match jGet fs k with
  | some j => isJsonStr j
  | none => false

def ValidDefStrField (fs : List (String × Json)) (k : String) : Bool :=
  match jGet fs k with
  | none => true
  | some j => isJsonStr j

def ValidReqStrListField (fs : List (String × Json)) (k : String) : Bool :=
  match jGet fs k with
  | some (Json.arr xs) => xs.all isJsonStr
  | _ => false

def validActionStr : Json → Bool
  | Json.str a =>
    (a == "create") || (a == "replace") || (a == "append_to_file") ||
      (a == "replace_function") || (a == "append_to_function") ||
      (a == "add_import")
  | _ => false

def ValidActionField (fs : List (String × Json)) : Bool :=
  match jGet fs "action" with
  | some j => validActionStr j
  | none => false

def ValidSuggestion : Json → Bool
  | Json.obj fs =>
    match jGet fs "type" with
    | some (Json.str t) =>
      if t = "cargo_dependency" then
        ValidReqStrListField fs "dependency_lines" && ValidOptStrField fs "notes"
      else if t = "source_code" then
        ValidReqStrField fs "target_file" && ValidActionField fs &&
          ValidDefStrField fs "content" && ValidOptStrField fs "function_name" &&
          ValidOptStrField fs "import_statement" && ValidOptStrField fs "notes"
      else if t = "general_advice" then
        ValidReqStrField fs "content" && ValidOptStrField fs "notes"
      else false
    | _ => false
  | _ => false

def ValidAssistResponse : Json → Bool
  | Json.obj fs =>
    (match jGet fs "suggestions" with
      | some (Json.arr xs) => xs.all ValidSuggestion
      | _ => false) && ValidOptStrField fs "overall_summary"
  | _ => false

/-! ## Suggestion application (`src/auto_update/updater.rs` 120-270)

The handler's effect is modelled as the list of file/TOML operations it
performs, in order; interactive stdin reads are the `user_input` list
(mirroring the test-input iterator, which errors when exhausted). -/

inductive Op where
  | addCargoDeps (lines : List String)
  | create (path content : String)
  | replace (path content : String)
  | append (path content : String)
deriving DecidableEq, Repr

inductive HandlerResult where
  | fallback
  | processed (ops : List Op)
  | inputExhausted
deriving DecidableEq, Repr

/-- `user_choice.trim().to_lowercase()`. -/
def normalize (s : String) : String := toLowerStr (trimStr s)

inductive CodeDecision where
  | apply | skip | skipAll
deriving DecidableEq, Repr

/-- The inner prompt loop for one source-code suggestion: "yes"/"y"
applies, "no"/"n" skips, "skip_all_code"/"s" skips all remaining
suggestions; "details"/"d" and invalid answers re-prompt. -/
def read_code_decision : List String → Option (CodeDecision × List String)
  | [] => none
  | a :: rest =>
    if normalize a = "yes" ∨ normalize a = "y" then
      some (CodeDecision.apply, rest)
    else if normalize a = "no" ∨ normalize a = "n" then
      some (CodeDecision.skip, rest)
    else if normalize a = "skip_all_code" ∨ normalize a = "s" then
      some (CodeDecision.skipAll, rest)
    else read_code_decision rest

/-- The file operation performed for an approved source-code suggestion
(empty for the "advanced" actions and for add_import without an import
statement). -/
def applyOps (sugg : LlmSourceCodeSuggestion) : List Op :=
  match sugg.action with
  | SuggestionAction.Create => [Op.create sugg.target_file sugg.content]
  | SuggestionAction.Replace => [Op.replace sugg.target_file sugg.content]
  | SuggestionAction.AppendToFile => [Op.append sugg.target_file sugg.content]
  | SuggestionAction.AddImport =>
    match sugg.import_statement with
    | some imp => [Op.append sugg.target_file (imp ++ "\n")]
    | none => []
  | _ => []

/-- The source-code suggestion loop of `handle_code_generation_suggestions`
(updater.rs lines 194-251). -/
def process_source_suggestions (suggs : List LlmSourceCodeSuggestion)
    (input : List String) (auto_approve_code skip_remaining_code : Bool) :
    Option (List Op) :=
  match suggs with
  | [] => some []
  | sugg :: rest =>
    if skip_remaining_code then
      process_source_suggestions rest input auto_approve_code true
    else if auto_approve_code then
      (process_source_suggestions rest input auto_approve_code false).map
        (fun ops => applyOps sugg ++ ops)
    else
      match read_code_decision input with
      | none => none
      | some (d, rest_input) =>
        match d with
        | CodeDecision.apply =>
          (process_source_suggestions rest rest_input auto_approve_code
            false).map (fun ops => applyOps sugg ++ ops)
        | CodeDecision.skip =>
          process_source_suggestions rest rest_input auto_approve_code false
        | CodeDecision.skipAll =>
          process_source_suggestions rest rest_input auto_approve_code true

/-- The Cargo-dependency confirmation of
`handle_code_generation_suggestions` (updater.rs lines 174-192). -/
def process_deps (deps : List String) (input : List String)
    (auto_approve_deps : Bool) : Option (List Op × List String) :=
  if deps.isEmpty then some ([], input)
  else if auto_approve_deps then some ([Op.addCargoDeps deps], input)
  else
    match input with
    | [] => none
    | a :: rest =>
      if normalize a = "yes" ∨ normalize a = "y" then
        some ([Op.addCargoDeps deps], rest)
      else some ([], rest)

/-- The collection loop over parsed suggestions (updater.rs 158-172). -/
def collectDeps (suggs : List LlmSingleSuggestion) : List String :=
  suggs.foldl (fun acc s =>
    match s with
    | LlmSingleSuggestion.CargoDependency d => acc ++ d.dependency_lines
    | _ => acc) []

def collectSrc (suggs : List LlmSingleSuggestion) :
    List LlmSourceCodeSuggestion :=
  suggs.foldl (fun acc s =>
    match s with
    | LlmSingleSuggestion.SourceCode c => acc ++ [c]
    | _ => acc) []

/-- `handle_code_generation_suggestions` from updater.rs: on a parse
failure it falls back to raw code-block extraction
(`code_gen::generate_code_files`) and performs no suggestion-based
operation; otherwise it confirms and applies dependency and source-code
suggestions in order. -/
def handle_code_generation_suggestions (input_json : Option Json)
    (user_input : List String) (auto_approve_deps auto_approve_code : Bool) :
    HandlerResult :=
  match parse_assist_task_response input_json with
  | Except.error _ => HandlerResult.fallback
  | Except.ok parsed =>
    match process_deps (collectDeps parsed.suggestions) user_input
        auto_approve_deps with
    | none => HandlerResult.inputExhausted
    | some (dep_ops, rest_input) =>
      match process_source_suggestions (collectSrc parsed.suggestions)
          rest_input auto_approve_code false with
      | none => HandlerResult.inputExhausted
      | some src_ops => HandlerResult.processed (dep_ops ++ src_ops)

end EnvCoach

namespace EnvCoach

/-! ### C4: the decoder succeeds exactly on valid assist-task documents -/

theorem decStr_isSome (j : Json) : (decStr j).isSome = isJsonStr j := by
  cases j <;> rfl

theorem decAction_isSome (j : Json) :
    (decAction j).isSome = validActionStr j := by
  cases j with
  | str a =>
    simp only [decAction, validActionStr]
    split_ifs with h1 h2 h3 h4 h5 h6 <;> simp_all
  | null => rfl
  | bool b => rfl
  | num n => rfl
  | arr xs => rfl
  | obj fs => rfl

theorem optStrField_isSome (fs : List (String × Json)) (k : String) :
    (decOptStrField fs k).isSome = ValidOptStrField fs k := by
  unfold decOptStrField ValidOptStrField
  cases h : jGet fs k with
  | none => rfl
  | some j => cases j <;> rfl

theorem reqStrField_isSome (fs : List (String × Json)) (k : String) :
    ((jGet fs k).bind decStr).isSome = ValidReqStrField fs k := by
  unfold ValidReqStrField
  cases h : jGet fs k with
  | none => rfl
  | some j => cases j <;> rfl

theorem defStrField_isSome (fs : List (String × Json)) (k : String) :
    (decStrFieldD fs k).isSome = ValidDefStrField fs k := by
  unfold decStrFieldD ValidDefStrField
  cases h : jGet fs k with
  | none => rfl
  | some j => cases j <;> rfl

theorem actionField_isSome (fs : List (String × Json)) :
    ((jGet fs "action").bind decAction).isSome = ValidActionField fs := by
  unfold ValidActionField
  cases h : jGet fs "action" with
  | none => rfl
  | some j => exact decAction_isSome j

theorem decJsonList_isSome {α : Type} (dec : Json → Option α)
    (xs : List Json) :
    (decJsonList dec xs).isSome = xs.all (fun x => (dec x).isSome) := by
  induction xs with
  | nil => rfl
  | cons x tl ih =>
    cases hx : dec x <;> cases ht : decJsonList dec tl <;>
      simp [decJsonList, hx, ht, ← ih]

theorem reqStrListField_isSome (fs : List (String × Json)) (k : String) :
    ((jGet fs k).bind decStrList).isSome = ValidReqStrListField fs k := by
  unfold ValidReqStrListField
  cases h : jGet fs k with
  | none => rfl
  | some j =>
    cases j with
    | arr xs =>
      show (decStrList (Json.arr xs)).isSome = xs.all isJsonStr
      simp [decStrList, decJsonList_isSome, decStr_isSome]
    | null => rfl
    | bool b => rfl
    | num n => rfl
    | str s => rfl
    | obj fs2 => rfl

theorem decCargoDep_isSome (fs : List (String × Json)) :
    (decCargoDep fs).isSome =
      (ValidReqStrListField fs "dependency_lines" &&
        ValidOptStrField fs "notes") := by
  unfold decCargoDep
  rw [← reqStrListField_isSome fs "dependency_lines",
    ← optStrField_isSome fs "notes"]
  cases h1 : (jGet fs "dependency_lines").bind decStrList <;>
    cases h2 : decOptStrField fs "notes" <;> rfl

theorem decSourceCode_isSome (fs : List (String × Json)) :
    (decSourceCode fs).isSome =
      (ValidReqStrField fs "target_file" && ValidActionField fs &&
        ValidDefStrField fs "content" && ValidOptStrField fs "function_name" &&
        ValidOptStrField fs "import_statement" &&
        ValidOptStrField fs "notes") := by
  unfold decSourceCode
  rw [← reqStrField_isSome fs "target_file", ← actionField_isSome fs,
    ← defStrField_isSome fs "content", ← optStrField_isSome fs "function_name",
    ← optStrField_isSome fs "import_statement", ← optStrField_isSome fs "notes"]
  cases h1 : (jGet fs "target_file").bind decStr <;>
    cases h2 : (jGet fs "action").bind decAction <;>
    cases h3 : decStrFieldD fs "content" <;>
    cases h4 : decOptStrField fs "function_name" <;>
    cases h5 : decOptStrField fs "import_statement" <;>
    cases h6 : decOptStrField fs "notes" <;> rfl

theorem decGeneralAdvice_isSome (fs : List (String × Json)) :
    (decGeneralAdvice fs).isSome =
      (ValidReqStrField fs "content" && ValidOptStrField fs "notes") := by
  unfold decGeneralAdvice
  rw [← reqStrField_isSome fs "content", ← optStrField_isSome fs "notes"]
  cases h1 : (jGet fs "content").bind decStr <;>
    cases h2 : decOptStrField fs "notes" <;> rfl

theorem decSuggestion_isSome (j : Json) :
    (decSuggestion j).isSome = ValidSuggestion j := by
  cases j with
  | obj fs =>
    simp only [decSuggestion, ValidSuggestion]
    cases h : jGet fs "type" with
    | none => rfl
    | some tv =>
      cases tv with
      | str t =>
        by_cases h1 : t = "cargo_dependency"
        · simp [h1, decCargoDep_isSome]
        · by_cases h2 : t = "source_code"
          · simp [h1, h2, decSourceCode_isSome]
          · by_cases h3 : t = "general_advice"
            · simp [h1, h2, h3, decGeneralAdvice_isSome]
            · simp [h1, h2, h3]
      | null => rfl
      | bool b => rfl
      | num n => rfl
      | arr xs => rfl
      | obj fs2 => rfl
  | null => rfl
  | bool b => rfl
  | num n => rfl
  | str s => rfl
  | arr xs => rfl

theorem decAssistTaskResponse_isSome (j : Json) :
    (decAssistTaskResponse j).isSome = ValidAssistResponse j := by
  cases j with
  | obj fs =>
    simp only [decAssistTaskResponse, ValidAssistResponse]
    cases h : jGet fs "suggestions" with
    | none => rfl
    | some sj =>
      cases sj with
      | arr xs =>
        have hl : (decJsonList decSuggestion xs).isSome =
            xs.all ValidSuggestion := by
          rw [decJsonList_isSome]
          simp [decSuggestion_isSome]
        show ((decJsonList decSuggestion xs).bind fun suggestions =>
            (decOptStrField fs "overall_summary").bind fun overall_summary =>
              some (LlmAssistTaskResponse.mk suggestions
                overall_summary)).isSome =
          (xs.all ValidSuggestion && ValidOptStrField fs "overall_summary")
        rw [← hl, ← optStrField_isSome fs "overall_summary"]
        cases hx : decJsonList decSuggestion xs <;>
          cases hy : decOptStrField fs "overall_summary" <;> rfl
      | null => rfl
      | bool b => rfl
      | num n => rfl
      | str s => rfl
      | obj fs2 => rfl
  | null => rfl
  | bool b => rfl
  | num n => rfl
  | str s => rfl
  | arr xs => rfl

end EnvCoach

/-- C4: `parse_assist_task_response` returns Ok exactly when the input is
valid JSON whose "suggestions" array elements all carry a "type" tag in
cargo_dependency / source_code / general_advice with that variant's
required fields present and well-shaped; on Err,
`handle_code_generation_suggestions` performs no suggestion-based
operation and falls back to raw code-block extraction. -/
theorem C4_parse_assist_iff (input : Option EnvCoach.Json)
    (user_input : List String) (ad ac : Bool) :
    ((∃ r, EnvCoach.parse_assist_task_response input = Except.ok r) ↔
      (∃ j, input = some j ∧ EnvCoach.ValidAssistResponse j = true)) ∧
    (∀ e, EnvCoach.parse_assist_task_response input = Except.error e →
      EnvCoach.handle_code_generation_suggestions input user_input ad ac =
        EnvCoach.HandlerResult.fallback) := by
  constructor
  · constructor
    · rintro ⟨r, hr⟩
      cases input with
      | none => simp [EnvCoach.parse_assist_task_response] at hr
      | some j =>
        refine ⟨j, rfl, ?_⟩
        cases hd : EnvCoach.decAssistTaskResponse j with
        | none =>
          have hne : EnvCoach.parse_assist_task_response (some j) =
              Except.error
                "Failed to deserialize LLM response for assist-task" := by
            simp [EnvCoach.parse_assist_task_response, hd]
          rw [hne] at hr
          exact absurd hr (by simp)
        | some r2 =>
          have hs := EnvCoach.decAssistTaskResponse_isSome j
          rw [hd] at hs
          exact hs.symm
    · rintro ⟨j, hj, hv⟩
      subst hj
      have hs := EnvCoach.decAssistTaskResponse_isSome j
      rw [hv] at hs
      cases hd : EnvCoach.decAssistTaskResponse j with
      | none => rw [hd] at hs; simp at hs
      | some r =>
        exact ⟨r, by simp [EnvCoach.parse_assist_task_response, hd]⟩
  · intro e he
    unfold EnvCoach.handle_code_generation_suggestions
    rw [he]

/-- Witness for C4: invalid JSON input makes the handler fall back. -/
theorem C4_parse_assist_iff_witness :
    EnvCoach.handle_code_generation_suggestions none [] false false =
      EnvCoach.HandlerResult.fallback :=
  (C4_parse_assist_iff none [] false false).2 "invalid JSON" rfl

/-- C5: in the interactive (non-auto-approved) source-code loop, once the
user answers skip_all_code (or "s"), that suggestion and every later one
produce no file operation; with the skip flag set the loop applies
nothing. -/
theorem C5_skip_all_code (sugg : EnvCoach.LlmSourceCodeSuggestion)
    (rest : List EnvCoach.LlmSourceCodeSuggestion)
    (input rest_input : List String) :
    (∀ (suggs : List EnvCoach.LlmSourceCodeSuggestion) (inp : List String),
      EnvCoach.process_source_suggestions suggs inp false true = some []) ∧
    (EnvCoach.read_code_decision input =
        some (EnvCoach.CodeDecision.skipAll, rest_input) →
      EnvCoach.process_source_suggestions (sugg :: rest) input false false =
        some []) := by
  have hskip : ∀ (suggs : List EnvCoach.LlmSourceCodeSuggestion)
      (inp : List String),
      EnvCoach.process_source_suggestions suggs inp false true = some [] := by
    intro suggs inp
    induction suggs with
    | nil => rfl
    | cons s r ih => simpa [EnvCoach.process_source_suggestions] using ih
  refine ⟨hskip, ?_⟩
  intro h
  unfold EnvCoach.process_source_suggestions
  simp [h, hskip]

/-- Witness for C5: answering "s" at the first prompt applies nothing. -/
theorem C5_skip_all_code_witness :
    EnvCoach.process_source_suggestions
      [⟨"f.rs", EnvCoach.SuggestionAction.Create, "x", none, none, none⟩]
      ["s"] false false = some [] :=
  (C5_skip_all_code
    ⟨"f.rs", EnvCoach.SuggestionAction.Create, "x", none, none, none⟩
    [] ["s"] []).2 (by rfl)

namespace EnvCoach

/-! ## Sprint planning (`src/scripts/sprint.rs` lines 203-247)

The part of `plan` after a non-empty set of story IDs has been confirmed:
computing the point total, creating the Sprint and tagging the confirmed
backlog items. `format!("S-{:03}", n)` is `"S-" ++ pad3 n`. -/

def pad3 (n : Nat) : String :=
  if n < 10 then "00" ++ toString n
  else if n < 100 then "0" ++ toString n
  else toString n

/-- One iteration of the point-total loop: add the effort of the first
backlog item matching the id (ids that do not resolve contribute 0). -/
def addEffort (backlog : List BacklogItem) (acc : Nat) (id : String) : Nat :=
  match backlog.find? (fun i => i.id == id) with
  | some item => acc + item.effort
  | none => acc

/-- The point-total loop of `plan`. -/
def sumConfirmedPoints (backlog : List BacklogItem) (ids : List String) : Nat :=
  ids.foldl (addEffort backlog) 0

/-- `project.backlog.iter_mut().find(..)` followed by
`item.sprint = Some(sprint_id)`: set the sprint of the first matching
item. -/
def setSprintOnFirst (backlog : List BacklogItem) (item_id sprint_id : String) :
    List BacklogItem :=
  match backlog with
  | [] => []
  | item :: rest =>
    if item.id = item_id then { item with sprint := some sprint_id } :: rest
    else item :: setSprintOnFirst rest item_id sprint_id

/-- `plan` from sprint.rs (the post-confirmation part). -/
def plan_sprint (project : Project) (confirmed_story_ids : List String)
    (goal : String) (days : Nat) (now : Timestamp) : Project :=
  let total_sprint_points := sumConfirmedPoints project.backlog confirmed_story_ids
  let sprint_id := "S-" ++ pad3 (project.sprints.length + 1)
  let new_sprint : Sprint :=
    { id := sprint_id
      goal := goal
      start_date := now
      end_date := now + days * 86400000
      status := SprintStatus.Planning
      total_points := total_sprint_points
      completed_points := 0
      tasks := confirmed_story_ids
      stories := confirmed_story_ids
      planned_velocity := 0
      actual_velocity := 0 }
  { project with
    sprints := project.sprints ++ [new_sprint]
    backlog := confirmed_story_ids.foldl
      (fun b id => setSprintOnFirst b id sprint_id) project.backlog }

/-- Effort of the first backlog item matching an id (0 when absent). -/
def effortOf (backlog : List BacklogItem) (id : String) : Nat :=
  match backlog.find? (fun i => i.id == id) with
  | some item => item.effort
  | none => 0

theorem addEffort_eq (backlog : List BacklogItem) (n : Nat) (id : String) :
    addEffort backlog n id = n + effortOf backlog id := by
  unfold addEffort effortOf
  cases h : backlog.find? (fun i => i.id == id) with
  | some item => rfl
  | none => rfl

theorem foldl_add_effort (backlog : List BacklogItem) (ids : List String)
    (n : Nat) :
    ids.foldl (addEffort backlog) n = n + (ids.map (effortOf backlog)).sum := by
  induction ids generalizing n with
  | nil => simp
  | cons id rest ih =>
    simp only [List.foldl_cons, List.map_cons, List.sum_cons, addEffort_eq]
    rw [ih]
    omega

theorem sumConfirmedPoints_eq (backlog : List BacklogItem)
    (ids : List String) :
    sumConfirmedPoints backlog ids = (ids.map (effortOf backlog)).sum := by
  unfold sumConfirmedPoints
  rw [foldl_add_effort]
  simp

theorem filter_effort_cons (b : List BacklogItem) (id : String)
    (rest : List String) (hb : (b.map (fun i => i.id)).Nodup)
    (hid : id ∉ rest) :
    ((b.filter (fun i => decide (i.id ∈ id :: rest))).map
      (fun i => i.effort)).sum =
      effortOf b id +
        ((b.filter (fun i => decide (i.id ∈ rest))).map
          (fun i => i.effort)).sum := by
  induction b with
  | nil => simp [effortOf]
  | cons i tl ih =>
    rw [List.map_cons, List.nodup_cons] at hb
    obtain ⟨hi_notin, htl⟩ := hb
    by_cases hi : i.id = id
    · have hfind : (i :: tl).find? (fun j => j.id == id) = some i := by
        simp [List.find?_cons, hi]
      have heff : effortOf (i :: tl) id = i.effort := by
        unfold effortOf
        rw [hfind]
      have hmem1 : i.id ∈ id :: rest := by simp [hi]
      have hmem2 : i.id ∉ rest := by rw [hi]; exact hid
      have hfilter : tl.filter (fun j => decide (j.id ∈ id :: rest)) =
          tl.filter (fun j => decide (j.id ∈ rest)) := by
        apply List.filter_congr
        intro j hj
        have hne : j.id ≠ id := by
          intro hcontra
          have hmm : j.id ∈ tl.map (fun i => i.id) :=
            List.mem_map_of_mem _ hj
          rw [hcontra, ← hi] at hmm
          exact hi_notin hmm
        simp [List.mem_cons, hne]
      have c1 : decide (i.id ∈ id :: rest) = true := by simp [hmem1]
      have c2 : ¬(decide (i.id ∈ rest) = true) := by simp [hmem2]
      simp only [List.filter_cons]
      rw [hfilter, if_pos c1, if_neg c2, heff]
      simp
    · have hfind : (i :: tl).find? (fun j => j.id == id) =
          tl.find? (fun j => j.id == id) := by
        simp [List.find?_cons, hi]
      have heff : effortOf (i :: tl) id = effortOf tl id := by
        unfold effortOf
        rw [hfind]
      by_cases hmem : i.id ∈ rest
      · have c1 : decide (i.id ∈ id :: rest) = true := by
          simp [List.mem_cons, hmem]
        have c2 : decide (i.id ∈ rest) = true := by simp [hmem]
        simp only [List.filter_cons]
        rw [if_pos c1, if_pos c2, heff]
        simp only [List.map_cons, List.sum_cons]
        rw [ih htl]
        omega
      · have c1 : ¬(decide (i.id ∈ id :: rest) = true) := by
          simp [List.mem_cons, hi, hmem]
        have c2 : ¬(decide (i.id ∈ rest) = true) := by simp [hmem]
        simp only [List.filter_cons]
        rw [if_neg c1, if_neg c2, heff]
        exact ih htl

theorem sumConfirmedPoints_filter (backlog : List BacklogItem)
    (ids : List String) (hids : ids.Nodup)
    (hb : (backlog.map (fun i => i.id)).Nodup) :
    sumConfirmedPoints backlog ids =
      ((backlog.filter (fun i => decide (i.id ∈ ids))).map
        (fun i => i.effort)).sum := by
  rw [sumConfirmedPoints_eq]
  induction ids with
  | nil => simp
  | cons id rest ih =>
    rw [List.nodup_cons] at hids
    obtain ⟨hid, hrest⟩ := hids
    rw [List.map_cons, List.sum_cons, ih hrest,
      filter_effort_cons backlog id rest hb hid]

theorem setSprintOnFirst_map (b : List BacklogItem) (id sid : String)
    (hb : (b.map (fun i => i.id)).Nodup) :
    setSprintOnFirst b id sid =
      b.map (fun i => if i.id = id then { i with sprint := some sid } else i) := by
  induction b with
  | nil => rfl
  | cons i tl ih =>
    rw [List.map_cons, List.nodup_cons] at hb
    obtain ⟨hi_notin, htl⟩ := hb
    by_cases hi : i.id = id
    · have htlid : tl.map (fun j => if j.id = id then
          { j with sprint := some sid } else j) = tl := by
        have hptw : ∀ j ∈ tl, (if j.id = id then
            { j with sprint := some sid } else j) = j := by
          intro j hj
          have hne : j.id ≠ id := by
            intro hc
            have hmm : j.id ∈ tl.map (fun i => i.id) :=
              List.mem_map_of_mem _ hj
            rw [hc, ← hi] at hmm
            exact hi_notin hmm
          simp [hne]
        calc tl.map (fun j => if j.id = id then { j with sprint := some sid }
              else j)
            = tl.map (fun j => j) := List.map_congr_left hptw
          _ = tl := List.map_id' tl
      simp [setSprintOnFirst, hi, htlid]
    · simp [setSprintOnFirst, hi, ih htl]

theorem foldl_setSprint_map (ids : List String) (b : List BacklogItem)
    (sid : String) (hb : (b.map (fun i => i.id)).Nodup) :
    ids.foldl (fun bb id => setSprintOnFirst bb id sid) b =
      b.map (fun i => if i.id ∈ ids then { i with sprint := some sid }
        else i) := by
  induction ids generalizing b with
  | nil => simp
  | cons id rest ih =>
    rw [List.foldl_cons, setSprintOnFirst_map b id sid hb]
    have hcomp : ((fun i : BacklogItem => i.id) ∘ (fun i => if i.id = id then
        { i with sprint := some sid } else i)) = fun i : BacklogItem => i.id := by
      funext i
      by_cases hi : i.id = id <;> simp [hi]
    have hb2 : ((b.map (fun i => if i.id = id then
        { i with sprint := some sid } else i)).map (fun i => i.id)).Nodup := by
      rw [List.map_map, hcomp]
      exact hb
    rw [ih _ hb2, List.map_map]
    apply List.map_congr_left
    intro i _
    by_cases h1 : i.id = id
    · by_cases h2 : i.id ∈ rest <;>
        simp [Function.comp, h1, h2, List.mem_cons]
    · by_cases h2 : i.id ∈ rest <;>
        simp [Function.comp, h1, h2, List.mem_cons]

/-- The id of the sprint created by `plan`:
`format!("S-{:03}", project.sprints.len() + 1)`. -/
def newSprintId (project : Project) : String :=
  "S-" ++ pad3 (project.sprints.length + 1)

end EnvCoach

/-- C8: with a confirmed non-empty set of story IDs, `plan` appends a
sprint with id "S-" ++ zero-padded new count, status Planning, start/end
dates now and now plus the duration, completed_points 0 and total_points
the sum of the confirmed items' efforts, and sets the sprint field of
every confirmed backlog item to the new sprint id (others unchanged). -/
theorem C8_plan_sprint (project : EnvCoach.Project) (ids : List String)
    (goal : String) (days : Nat) (now : EnvCoach.Timestamp)
    (hne : ids ≠ []) (hids : ids.Nodup)
    (hb : (project.backlog.map (fun i => i.id)).Nodup) :
    (EnvCoach.plan_sprint project ids goal days now).sprints =
      project.sprints ++
        [EnvCoach.Sprint.mk (EnvCoach.newSprintId project)
          goal now (now + days * 86400000) EnvCoach.SprintStatus.Planning
          (((project.backlog.filter (fun i => decide (i.id ∈ ids))).map
            (fun i => i.effort)).sum)
          0 ids ids 0 0] ∧
    (EnvCoach.plan_sprint project ids goal days now).backlog =
      project.backlog.map (fun i =>
        if i.id ∈ ids then { i with sprint := some (EnvCoach.newSprintId project) }
        else i) := by
  constructor
  · simp [EnvCoach.plan_sprint, EnvCoach.newSprintId,
      EnvCoach.sumConfirmedPoints_filter project.backlog ids hids hb]
  · simp only [EnvCoach.plan_sprint, EnvCoach.newSprintId]
    exact EnvCoach.foldl_setSprint_map ids project.backlog _ hb

namespace EnvCoach

def projWithTask : Project :=
  { sampleProject with backlog := [sampleTask] }

end EnvCoach

/-- Witness for C8: planning a sprint over the single task "T-001" tags it
with sprint "S-001". -/
theorem C8_plan_sprint_witness :
    (EnvCoach.plan_sprint EnvCoach.projWithTask ["T-001"] "g" 7 0).backlog =
      [{ EnvCoach.sampleTask with sprint := some "S-001" }] := by
  have h := C8_plan_sprint EnvCoach.projWithTask ["T-001"] "g" 7 0
    (by decide) (by decide) (by decide)
  rw [h.2]
  rfl
